import Mathlib

/-!
Verification of the task-list (to-do) application.

The logical core lives in `src/src/App.tsx`; the variant in
`src/unnamed/part_000` has an identical data model and identical
`getCategoryInfo`, `addTodo`, `toggleTodo`, `deleteTodo` and timeline
logic (it differs only in rendering, in the absence of the theme
feature, and in the calendar's fixed slot list ending at "12:00"
instead of "15:00").  The definitions below are a shallow embedding of
that core: React `useState` fields become fields of `AppState`, the
event handlers become pure state-transition functions, `Date.now()`
becomes an explicit `now : Nat` argument, and `localStorage` becomes
an explicit `Option Theme` value threaded through `toggleTheme`.
-/

/-- The closed classifier set `'Health' | 'Work' | 'Mental Health' | 'Others'`. -/
inductive Category where
  | Health
  | Work
  | MentalHealth
  | Others
deriving DecidableEq, Repr

/-- The two-valued theme flag `'light' | 'dark'`. -/
inductive Theme where
  | light
  | dark
deriving DecidableEq, Repr

/-- The view selector `'tasks' | 'calendar'`. -/
inductive View where
  | tasks
  | calendar
deriving DecidableEq, Repr

/-- The `Todo` interface.  The optional `time?: string` field is always
assigned a string by the code (the seed data uses `''` for "no time"),
so it is embedded as a plain `String`. -/
structure Todo where
  id : Nat
  text : String
  completed : Bool
  category : Category
  time : String
deriving DecidableEq, Repr

/-- The `CategoryInfo` interface returned by `getCategoryInfo`. -/
structure CategoryInfo where
  name : Category
  icon : String
  color : String
  count : Nat
deriving DecidableEq, Repr

/-- The component state: one field per `useState` hook of `App`. -/
structure AppState where
  todos : List Todo
  inputValue : String
  selectedCategory : Category
  selectedTime : String
  currentView : View
  theme : Theme
deriving DecidableEq, Repr

/-- JavaScript `String.prototype.trim`: drop leading and trailing
whitespace characters. -/
def jsTrim (s : String) : String :=
  String.mk (((s.data.dropWhile Char.isWhitespace).reverse.dropWhile
    Char.isWhitespace).reverse)

/-- The seeded initial todo collection. -/
def initialTodos : List Todo :=
  [ { id := 1, text := "Drink 8 glasses of water", completed := false,
      category := .Health, time := "6:00" },
    { id := 2, text := "Edit the PDF", completed := false,
      category := .Work, time := "" },
    { id := 3, text := "Get a notebook", completed := false,
      category := .MentalHealth, time := "9:00" },
    { id := 4, text := "Work", completed := false,
      category := .Work, time := "10:00" } ]

/-- The initial state of the component (the `useState` initial values). -/
def initialState : AppState :=
  { todos := initialTodos
    inputValue := ""
    selectedCategory := .Health
    selectedTime := ""
    currentView := .tasks
    theme := .dark }

/-- The fixed declaration-order list of classifier values iterated by
`getCategoryInfo`. -/
def categories : List Category := [.Health, .Work, .MentalHealth, .Others]

/-- The `categoryColors` record literal. -/
def categoryColors : Category → String
  | .Health => "#8B7FE8"
  | .Work => "#4CAF50"
  | .MentalHealth => "#FF89B5"
  | .Others => "#9E9E9E"

/-- The `categoryIcons` record literal. -/
def categoryIcons : Category → String
  | .Health => "💊"
  | .Work => "💼"
  | .MentalHealth => "🧠"
  | .Others => "📋"

/-- `getCategoryInfo`: map over the fixed category list, counting the
todos whose category matches each entry. -/
def getCategoryInfo (todos : List Todo) : List CategoryInfo :=
  categories.map fun cat =>
    { name := cat
      icon := categoryIcons cat
      color := categoryColors cat
      count := (todos.filter fun t => t.category == cat).length }

/-- `addTodo`: a no-op when the trimmed draft text is empty; otherwise
append a new todo built from `Date.now()` (the explicit `now`) and the
draft fields, then clear the draft text and draft time. -/
def addTodo (now : Nat) (s : AppState) : AppState :=
  if jsTrim s.inputValue = "" then s
  else
    let newTodo : Todo :=
      { id := now
        text := s.inputValue
        completed := false
        category := s.selectedCategory
        time := s.selectedTime }
    { s with todos := s.todos ++ [newTodo], inputValue := "", selectedTime := "" }

/-- The list transformation inside `toggleTodo`'s `setTodos` call. -/
def toggleTodoList (id : Nat) (todos : List Todo) : List Todo :=
  todos.map fun todo =>
    if todo.id == id then { todo with completed := !todo.completed } else todo

/-- `toggleTodo`: flip `completed` on every todo whose id matches. -/
def toggleTodo (id : Nat) (s : AppState) : AppState :=
  { s with todos := toggleTodoList id s.todos }

/-- The list transformation inside `deleteTodo`'s `setTodos` call. -/
def deleteTodoList (id : Nat) (todos : List Todo) : List Todo :=
  todos.filter fun todo => todo.id != id

/-- `deleteTodo`: keep exactly the todos whose id differs. -/
def deleteTodo (id : Nat) (s : AppState) : AppState :=
  { s with todos := deleteTodoList id s.todos }

/-- Draft-text setter (the text input's `onChange`). -/
def setInputValue (v : String) (s : AppState) : AppState :=
  { s with inputValue := v }

/-- Draft-classifier setter (the select's `onChange`). -/
def setSelectedCategory (c : Category) (s : AppState) : AppState :=
  { s with selectedCategory := c }

/-- Draft-time setter (the time input's `onChange`). -/
def setSelectedTime (v : String) (s : AppState) : AppState :=
  { s with selectedTime := v }

/-- View-selector setter (the tab buttons). -/
def setCurrentView (v : View) (s : AppState) : AppState :=
  { s with currentView := v }

/-- The fixed slot list of the calendar timeline in `App.tsx`. -/
def appTimeSlots : List String :=
  ["6:00", "7:00", "8:00", "9:00", "10:00", "11:00", "12:00",
   "13:00", "14:00", "15:00"]

/-- The timeline rendering's grouping: for each slot label, the todos
whose `time` field is string-equal to it. -/
def deriveTimeline (timeSlots : List String) (todos : List Todo) :
    List (String × List Todo) :=
  timeSlots.map fun time => (time, todos.filter fun t => t.time == time)

/-- A draft state over an empty collection, ready to add
"Buy milk" (Health, "9:00"). -/
def buyMilkDraft : AppState :=
  { todos := []
    inputValue := "Buy milk"
    selectedCategory := .Health
    selectedTime := "9:00"
    currentView := .tasks
    theme := .dark }

/-- The task produced by adding the "Buy milk" draft with id 7. -/
def buyMilkTodo : Todo :=
  { id := 7, text := "Buy milk", completed := false,
    category := .Health, time := "9:00" }

/-- The built-in theme default (`useState<Theme>('dark')`). -/
def initialAppTheme : Theme := .dark

/-- The mount effect reading `localStorage.getItem('theme')`: apply the
saved theme when one is stored, otherwise keep the built-in default. -/
def loadTheme (storage : Option Theme) : Theme :=
  match storage with
  | some savedTheme => savedTheme
  | none => initialAppTheme

/-- `toggleTheme`: flip the theme and write the new value to the single
`'theme'` storage slot. -/
def toggleTheme (theme : Theme) (_storage : Option Theme) :
    Theme × Option Theme :=
  let newTheme : Theme := match theme with
    | .light => .dark
    | .dark => .light
  (newTheme, some newTheme)

/-- The states reachable from the seeded initial state by the UI event
handlers, with `Date.now()` an arbitrary value at each add. -/
inductive Reachable : AppState → Prop where
  | init : Reachable initialState
  | setInput (v : String) {s : AppState} :
      Reachable s → Reachable (setInputValue v s)
  | setCategory (c : Category) {s : AppState} :
      Reachable s → Reachable (setSelectedCategory c s)
  | setTime (v : String) {s : AppState} :
      Reachable s → Reachable (setSelectedTime v s)
  | setView (v : View) {s : AppState} :
      Reachable s → Reachable (setCurrentView v s)
  | add (now : Nat) {s : AppState} :
      Reachable s → Reachable (addTodo now s)
  | toggle (id : Nat) {s : AppState} :
      Reachable s → Reachable (toggleTodo id s)
  | delete (id : Nat) {s : AppState} :
      Reachable s → Reachable (deleteTodo id s)

/-- Reachability restricted to runs where each add's timestamp differs
from every id already in the collection (true of wall-clock
`Date.now()` against the small seed ids, except when two adds land in
the same millisecond). -/
inductive ReachableFresh : AppState → Prop where
  | init : ReachableFresh initialState
  | setInput (v : String) {s : AppState} :
      ReachableFresh s → ReachableFresh (setInputValue v s)
  | setCategory (c : Category) {s : AppState} :
      ReachableFresh s → ReachableFresh (setSelectedCategory c s)
  | setTime (v : String) {s : AppState} :
      ReachableFresh s → ReachableFresh (setSelectedTime v s)
  | setView (v : View) {s : AppState} :
      ReachableFresh s → ReachableFresh (setCurrentView v s)
  | add (now : Nat) {s : AppState} :
      now ∉ s.todos.map Todo.id →
      ReachableFresh s → ReachableFresh (addTodo now s)
  | toggle (id : Nat) {s : AppState} :
      ReachableFresh s → ReachableFresh (toggleTodo id s)
  | delete (id : Nat) {s : AppState} :
      ReachableFresh s → ReachableFresh (deleteTodo id s)

/-! ### Helper lemmas -/

/-- Toggling leaves a list without a matching id unchanged. -/
theorem toggleTodoList_not_mem (id : Nat) (l : List Todo)
    (h : ∀ u ∈ l, u.id ≠ id) : toggleTodoList id l = l := by
  induction l with
  | nil => rfl
  | cons t ts ih =>
    have ht : t.id ≠ id := h t (by simp)
    simp only [toggleTodoList, List.map_cons, List.cons.injEq] at ih ⊢
    exact ⟨by simp [ht], ih fun u hu => h u (by simp [hu])⟩

/-- Toggling the same id twice restores the original list. -/
theorem toggleTodoList_involution (id : Nat) (l : List Todo) :
    toggleTodoList id (toggleTodoList id l) = l := by
  induction l with
  | nil => rfl
  | cons t ts ih =>
    simp only [toggleTodoList, List.map_cons, List.cons.injEq] at ih ⊢
    refine ⟨?_, ih⟩
    obtain ⟨tid, ttext, tcompleted, tcat, ttime⟩ := t
    by_cases h : tid = id
    · simp [h, Bool.not_not]
    · simp [h]

/-- Deleting an id absent from a list leaves it unchanged. -/
theorem deleteTodoList_not_mem (id : Nat) (l : List Todo)
    (h : ∀ u ∈ l, u.id ≠ id) : deleteTodoList id l = l := by
  apply List.filter_eq_self.mpr
  intro u hu
  simpa using h u hu

/-! ### Claims -/

/-- C2: when the draft text trims to the empty string, `addTodo` is a
no-op: the whole state (in particular the task collection and its
length) is unchanged, and no error is surfaced (the function is total
and returns the state unchanged). -/
theorem addTodo_trimEmpty_noop (now : Nat) (s : AppState)
    (h : jsTrim s.inputValue = "") :
    addTodo now s = s ∧ (addTodo now s).todos.length = s.todos.length := by
  simp [addTodo, h]

/-- Witness for `addTodo_trimEmpty_noop` at a whitespace-only draft. -/
theorem addTodo_trimEmpty_noop_w :
    addTodo 5 (setInputValue "   " initialState) = setInputValue "   " initialState
    ∧ (addTodo 5 (setInputValue "   " initialState)).todos.length
        = (setInputValue "   " initialState).todos.length :=
  addTodo_trimEmpty_noop 5 (setInputValue "   " initialState) (by decide)

/-- C3: when the draft text does not trim to the empty string,
`addTodo` appends exactly one new task (with the fresh id,
`completed = false`, the draft classifier and draft time) to the end of
the sequence, leaving all pre-existing tasks and their order unchanged,
increasing the length by exactly one, and clearing the draft text and
draft time. -/
theorem addTodo_nonEmpty_appends (now : Nat) (s : AppState)
    (h : jsTrim s.inputValue ≠ "") :
    (addTodo now s).todos
      = s.todos ++ [{ id := now, text := s.inputValue, completed := false,
                      category := s.selectedCategory, time := s.selectedTime }]
    ∧ (addTodo now s).todos.length = s.todos.length + 1
    ∧ (addTodo now s).inputValue = ""
    ∧ (addTodo now s).selectedTime = ""
    ∧ (addTodo now s).selectedCategory = s.selectedCategory := by
  simp [addTodo, h]

/-- Witness for `addTodo_nonEmpty_appends` on a concrete draft. -/
theorem addTodo_nonEmpty_appends_w :
    (addTodo 99 (setInputValue "Buy milk" initialState)).todos
      = (setInputValue "Buy milk" initialState).todos
        ++ [{ id := 99, text := "Buy milk", completed := false,
              category := .Health, time := "" }]
    ∧ (addTodo 99 (setInputValue "Buy milk" initialState)).todos.length
        = (setInputValue "Buy milk" initialState).todos.length + 1
    ∧ (addTodo 99 (setInputValue "Buy milk" initialState)).inputValue = ""
    ∧ (addTodo 99 (setInputValue "Buy milk" initialState)).selectedTime = ""
    ∧ (addTodo 99 (setInputValue "Buy milk" initialState)).selectedCategory
        = (setInputValue "Buy milk" initialState).selectedCategory :=
  addTodo_nonEmpty_appends 99 (setInputValue "Buy milk" initialState) (by decide)

/-- C10: a successful add stores the draft text verbatim — trimming is
applied only to the emptiness check, never to the stored value — and
for the input "  x  " the stored text differs from its trimmed form. -/
theorem addTodo_text_verbatim :
    (∀ (now : Nat) (s : AppState), jsTrim s.inputValue ≠ "" →
        ((addTodo now s).todos.getLast?).map Todo.text = some s.inputValue)
    ∧ jsTrim "  x  " ≠ ""
    ∧ ((addTodo 5 (setInputValue "  x  " initialState)).todos.getLast?).map Todo.text
        = some "  x  "
    ∧ "  x  " ≠ jsTrim "  x  " := by
  refine ⟨?_, by decide, by decide, by decide⟩
  intro now s h
  simp [addTodo, h, List.getLast?_concat]

/-- Witness for the universally quantified part of `addTodo_text_verbatim`. -/
theorem addTodo_text_verbatim_w :
    ((addTodo 7 (setInputValue "  pad  " initialState)).todos.getLast?).map Todo.text
      = some "  pad  " :=
  addTodo_text_verbatim.1 7 (setInputValue "  pad  " initialState) (by decide)

/-- C4: `toggleTodo` is an involution on the whole state (applying it
twice with the same id restores the original state), and toggling an id
that matches no task leaves the state — in particular the entire
collection — unchanged. -/
theorem toggleTodo_involution_and_missing_noop (id : Nat) (s : AppState) :
    toggleTodo id (toggleTodo id s) = s
    ∧ ((∀ t ∈ s.todos, t.id ≠ id) → toggleTodo id s = s) := by
  constructor
  · cases s
    simp [toggleTodo, toggleTodoList_involution]
  · intro h
    cases s
    simp only [toggleTodo] at *
    simp [toggleTodoList_not_mem id _ h]

/-- Witness for the no-op part of `toggleTodo_involution_and_missing_noop`
at an id absent from the seeded collection. -/
theorem toggleTodo_missing_noop_w :
    toggleTodo 999 initialState = initialState :=
  (toggleTodo_involution_and_missing_noop 999 initialState).2 (by decide)

/-- C9: `toggleTheme` flips the two-valued theme flag and writes the new
value to the single storage slot; session start applies the stored value
when present and otherwise the built-in default (dark); hence after a
toggle, a simulated restart reads back the flipped value. -/
theorem toggleTheme_persistence (storage : Option Theme) :
    loadTheme none = Theme.dark
    ∧ (∀ t : Theme, loadTheme (some t) = t)
    ∧ (toggleTheme Theme.light storage).1 = Theme.dark
    ∧ (toggleTheme Theme.dark storage).1 = Theme.light
    ∧ (toggleTheme (loadTheme storage) storage).2
        = some (toggleTheme (loadTheme storage) storage).1
    ∧ loadTheme (toggleTheme (loadTheme storage) storage).2
        = (toggleTheme (loadTheme storage) storage).1 :=
  ⟨rfl, fun _ => rfl, rfl, rfl, rfl, rfl⟩

/-- C5: on a collection where the toggled id occurs on exactly one task
(the uniqueness invariant), `toggleTodo` negates the `completed` flag of
that task only, leaves its other fields and every other task unchanged,
and preserves the order and length of the collection. -/
theorem toggleTodo_flips_exactly_matching (id : Nat) (s : AppState)
    (l₁ l₂ : List Todo) (t : Todo)
    (hs : s.todos = l₁ ++ t :: l₂) (ht : t.id = id)
    (h₁ : ∀ u ∈ l₁, u.id ≠ id) (h₂ : ∀ u ∈ l₂, u.id ≠ id) :
    toggleTodo id s
      = { s with todos := l₁ ++ { t with completed := !t.completed } :: l₂ }
    ∧ (toggleTodo id s).todos.length = s.todos.length := by
  have e₁ : toggleTodoList id l₁ = l₁ := toggleTodoList_not_mem id l₁ h₁
  have e₂ : toggleTodoList id l₂ = l₂ := toggleTodoList_not_mem id l₂ h₂
  have hl : toggleTodoList id s.todos
      = l₁ ++ { t with completed := !t.completed } :: l₂ := by
    rw [hs]
    simp only [toggleTodoList, List.map_append, List.map_cons] at e₁ e₂ ⊢
    rw [e₁, e₂, if_pos (by simp [ht])]
  constructor
  · simp [toggleTodo, hl]
  · simp only [toggleTodo]
    rw [hl, hs]
    simp

/-- Witness for `toggleTodo_flips_exactly_matching` on the seeded state
at id 3. -/
theorem toggleTodo_flips_exactly_matching_w :
    toggleTodo 3 initialState
      = { initialState with
            todos := initialTodos.take 2
              ++ { id := 3, text := "Get a notebook", completed := true,
                   category := .MentalHealth, time := "9:00" }
                :: initialTodos.drop 3 }
    ∧ (toggleTodo 3 initialState).todos.length = initialState.todos.length := by
  have h := toggleTodo_flips_exactly_matching 3 initialState
    (initialTodos.take 2) (initialTodos.drop 3)
    { id := 3, text := "Get a notebook", completed := false,
      category := .MentalHealth, time := "9:00" }
    (by decide) (by decide) (by decide) (by decide)
  exact h

/-- C6: on a collection where the deleted id occurs on exactly one task,
`deleteTodo` removes exactly that task, decreasing the length by one and
preserving the relative order of the remaining tasks; deleting an id
that matches no task leaves the state unchanged. -/
theorem deleteTodo_removes_exactly_matching (id : Nat) :
    (∀ (s : AppState) (l₁ l₂ : List Todo) (t : Todo),
        s.todos = l₁ ++ t :: l₂ → t.id = id →
        (∀ u ∈ l₁, u.id ≠ id) → (∀ u ∈ l₂, u.id ≠ id) →
        deleteTodo id s = { s with todos := l₁ ++ l₂ }
        ∧ (deleteTodo id s).todos.length + 1 = s.todos.length)
    ∧ (∀ s : AppState, (∀ u ∈ s.todos, u.id ≠ id) → deleteTodo id s = s) := by
  constructor
  · intro s l₁ l₂ t hs ht h₁ h₂
    have e₁ : deleteTodoList id l₁ = l₁ := deleteTodoList_not_mem id l₁ h₁
    have e₂ : deleteTodoList id l₂ = l₂ := deleteTodoList_not_mem id l₂ h₂
    have hl : deleteTodoList id s.todos = l₁ ++ l₂ := by
      rw [hs]
      simp only [deleteTodoList, List.filter_append, List.filter_cons] at e₁ e₂ ⊢
      rw [e₁, e₂, if_neg (by simp [ht])]
    constructor
    · simp [deleteTodo, hl]
    · simp only [deleteTodo]
      rw [hl, hs]
      simp [Nat.add_assoc]
  · intro s h
    cases s
    simp only [deleteTodo] at *
    simp [deleteTodoList_not_mem id _ h]

/-- Witness for `deleteTodo_removes_exactly_matching` on the seeded
state: deleting id 2 removes exactly the second seed task, and deleting
the absent id 999 is a no-op. -/
theorem deleteTodo_removes_exactly_matching_w :
    (deleteTodo 2 initialState
      = { initialState with
            todos := initialTodos.take 1 ++ initialTodos.drop 2 }
      ∧ (deleteTodo 2 initialState).todos.length + 1
          = initialState.todos.length)
    ∧ deleteTodo 999 initialState = initialState := by
  constructor
  · exact (deleteTodo_removes_exactly_matching 2).1 initialState
      (initialTodos.take 1) (initialTodos.drop 2)
      { id := 2, text := "Edit the PDF", completed := false,
        category := .Work, time := "" }
      (by decide) (by decide) (by decide) (by decide)
  · exact (deleteTodo_removes_exactly_matching 999).2 initialState (by decide)

/-- C7: `getCategoryInfo` returns one summary entry per classifier value
of the fixed closed set, in the fixed declaration order
(Health, Work, Mental Health, Others); each entry's count equals the
number of tasks carrying that classifier; and the result is invariant
under any permutation of the task order. -/
theorem getCategoryInfo_counts (l : List Todo) :
    (getCategoryInfo l).map CategoryInfo.name
      = [Category.Health, Category.Work, Category.MentalHealth, Category.Others]
    ∧ (∀ c ∈ getCategoryInfo l, c.count = (l.map Todo.category).count c.name)
    ∧ (∀ l' : List Todo, l.Perm l' → getCategoryInfo l = getCategoryInfo l') := by
  refine ⟨?_, ?_, ?_⟩
  · simp [getCategoryInfo, categories]
  · intro c hc
    simp only [getCategoryInfo, List.mem_map] at hc
    obtain ⟨cat, _, rfl⟩ := hc
    simp only [List.count_eq_countP, List.countP_map,
      ← List.countP_eq_length_filter]
    rfl
  · intro l' hp
    simp only [getCategoryInfo]
    apply List.map_congr_left
    intro cat _
    simp only [CategoryInfo.mk.injEq, true_and]
    exact (hp.filter _).length_eq

/-- Witness for `getCategoryInfo_counts`: the count entry for Work on
the seeded collection, and permutation invariance on a two-task list. -/
theorem getCategoryInfo_counts_w :
    ({ name := Category.Work, icon := "💼", color := "#4CAF50",
       count := 2 : CategoryInfo }).count
      = (initialTodos.map Todo.category).count Category.Work
    ∧ getCategoryInfo (initialTodos.take 2)
        = getCategoryInfo (initialTodos.take 2).reverse := by
  constructor
  · exact (getCategoryInfo_counts initialTodos).2.1
      { name := Category.Work, icon := "💼", color := "#4CAF50", count := 2 }
      (by decide)
  · exact (getCategoryInfo_counts (initialTodos.take 2)).2.2
      (initialTodos.take 2).reverse (by decide)

/-- C8: the timeline yields one entry per slot label in order; each
entry holds exactly the subsequence (in collection order) of tasks whose
`time` field is string-equal to that slot's label; a task whose time
matches no slot label appears in no entry, and in particular a task with
empty time appears in no entry of the app's fixed timeline. -/
theorem deriveTimeline_groups (timeSlots : List String) (l : List Todo) :
    (deriveTimeline timeSlots l).map Prod.fst = timeSlots
    ∧ (∀ p ∈ deriveTimeline timeSlots l,
        p.2.Sublist l
        ∧ (∀ t ∈ p.2, t.time = p.1)
        ∧ (∀ t ∈ l, t.time = p.1 → t ∈ p.2))
    ∧ (∀ t ∈ l, t.time ∉ timeSlots →
        ∀ p ∈ deriveTimeline timeSlots l, t ∉ p.2)
    ∧ (∀ t ∈ l, t.time = "" →
        ∀ p ∈ deriveTimeline appTimeSlots l, t ∉ p.2) := by
  refine ⟨?_, ?_, ?_, ?_⟩
  · simp [deriveTimeline, Function.comp_def]
  · intro p hp
    simp only [deriveTimeline, List.mem_map] at hp
    obtain ⟨slot, _, rfl⟩ := hp
    refine ⟨List.filter_sublist l, ?_, ?_⟩
    · intro t htmem
      simpa using (List.mem_filter.mp htmem).2
    · intro t htl htime
      exact List.mem_filter.mpr ⟨htl, by simp [htime]⟩
  · intro t _ hnot p hp hmem
    simp only [deriveTimeline, List.mem_map] at hp
    obtain ⟨slot, hslot, rfl⟩ := hp
    have : t.time = slot := by simpa using (List.mem_filter.mp hmem).2
    exact hnot (this ▸ hslot)
  · intro t _ hempty p hp hmem
    simp only [deriveTimeline, List.mem_map] at hp
    obtain ⟨slot, hslot, rfl⟩ := hp
    have hts : t.time = slot := by simpa using (List.mem_filter.mp hmem).2
    have : ("" : String) ∈ appTimeSlots := (hempty ▸ hts) ▸ hslot
    exact absurd this (by decide)

/-- Witness for `deriveTimeline_groups`: the end-to-end scenario — from
an empty collection, adding "Buy milk" (Health, "9:00") and deriving
the timeline for slots "9:00" and "10:00" lists the new task under
"9:00" and nothing under "10:00". -/
theorem deriveTimeline_groups_w :
    (buyMilkTodo
      ∈ (("9:00", (addTodo 7 buyMilkDraft).todos.filter
            fun t => t.time == "9:00") : String × List Todo).2)
    ∧ (buyMilkTodo
        ∉ (("10:00", (addTodo 7 buyMilkDraft).todos.filter
              fun t => t.time == "10:00") : String × List Todo).2) := by
  constructor
  · exact ((deriveTimeline_groups ["9:00", "10:00"]
        (addTodo 7 buyMilkDraft).todos).2.1
      _ (by decide)).2.2 _ (by decide) (by decide)
  · intro hmem
    exact absurd (((deriveTimeline_groups ["9:00", "10:00"]
        (addTodo 7 buyMilkDraft).todos).2.1
      _ (by decide)).2.1 _ hmem) (by decide)

/-- `toggleTodo` preserves the id sequence of the collection. -/
theorem toggleTodo_ids (id : Nat) (s : AppState) :
    (toggleTodo id s).todos.map Todo.id = s.todos.map Todo.id := by
  simp only [toggleTodo, toggleTodoList, List.map_map]
  apply List.map_congr_left
  intro t _
  simp only [Function.comp_apply]
  split <;> rfl

/-- `deleteTodo` keeps a sub-sequence of the id sequence. -/
theorem deleteTodo_ids_sublist (id : Nat) (s : AppState) :
    ((deleteTodo id s).todos.map Todo.id).Sublist (s.todos.map Todo.id) :=
  (List.filter_sublist _).map _

/-- `addTodo` preserves distinctness of ids when the supplied timestamp
differs from every id already in the collection. -/
theorem addTodo_ids_nodup (now : Nat) (s : AppState)
    (hfresh : now ∉ s.todos.map Todo.id)
    (h : (s.todos.map Todo.id).Nodup) :
    ((addTodo now s).todos.map Todo.id).Nodup := by
  unfold addTodo
  split
  · exact h
  · simpa [List.nodup_append, h] using hfresh

/-- C1 counterexample: ids are not unique in every reachable state —
`Date.now()` is an arbitrary number, and an add whose timestamp equals
an existing id (here 1, an id of the seed data) duplicates it. -/
theorem reachable_duplicate_ids :
    ∃ s : AppState, Reachable s ∧ ¬ (s.todos.map Todo.id).Nodup := by
  refine ⟨addTodo 1 (setInputValue "a" initialState),
    Reachable.add 1 (Reachable.setInput "a" Reachable.init), ?_⟩
  decide

/-- C1 amended: in every state reachable with each add's timestamp
distinct from all ids already in the collection, the id sequence of the
live tasks has no duplicates. -/
theorem reachableFresh_ids_nodup (s : AppState) (h : ReachableFresh s) :
    (s.todos.map Todo.id).Nodup := by
  induction h with
  | init => decide
  | setInput v _ ih => exact ih
  | setCategory c _ ih => exact ih
  | setTime v _ ih => exact ih
  | setView v _ ih => exact ih
  | add now hfresh _ ih => exact addTodo_ids_nodup now _ hfresh ih
  | toggle id _ ih =>
    rw [toggleTodo_ids]
    exact ih
  | delete id _ ih => exact List.Nodup.sublist (deleteTodo_ids_sublist id _) ih

/-- Witness for `reachableFresh_ids_nodup`: a run that sets the draft
text and adds with the fresh timestamp 100 keeps ids distinct. -/
theorem reachableFresh_ids_nodup_w :
    ((addTodo 100 (setInputValue "hi" initialState)).todos.map Todo.id).Nodup :=
  reachableFresh_ids_nodup _
    (ReachableFresh.add 100 (by decide)
      (ReachableFresh.setInput "hi" ReachableFresh.init))
